import Mathlib

/-!
Verification of the configuration-file layer (`qutebrowser/config/configfiles.py`):
the persisted state store (`StateConfig`), the YAML override store (`YamlConfig`),
the script facade (`ConfigAPI`) and the script runner (`read_config_py`).

Python dicts over string keys are embedded as association lists that preserve
insertion order; assignment overwrites in place, deletion removes the entry.
External collaborators (the live config model, the key config, the YAML parser,
the filesystem) are embedded as explicit inputs.
-/

namespace Configfiles

/-! ### Association-list helpers (Python `dict` semantics) -/

/-- `d[k]` lookup: first entry with the given key. -/
def alGet {κ α : Type} [DecidableEq κ] : List (κ × α) → κ → Option α
  | [], _ => none
  | (k', v) :: rest, k => if k' = k then some v else alGet rest k

/-- `d[k] = v` assignment: overwrite in place if present, else append. -/
def alSet {κ α : Type} [DecidableEq κ] : List (κ × α) → κ → α → List (κ × α)
  | [], k, v => [(k, v)]
  | (k', v') :: rest, k, v =>
      if k' = k then (k, v) :: rest else (k', v') :: alSet rest k v

/-- The list of keys of a dict. -/
def alKeys {κ α : Type} (l : List (κ × α)) : List κ := l.map Prod.fst

/-! ### YAML values

A parsed YAML document, as `utils.yaml_load` returns it: `None`, booleans,
integers, strings, sequences and mappings (mapping keys of the documents this
layer reads are strings). -/

inductive YamlValue : Type
  | null
  | bool (b : Bool)
  | int (n : Int)
  | str (s : String)
  | seq (items : List YamlValue)
  | map (entries : List (String × YamlValue))

/-- Whether a parsed value is a Python `dict` (`isinstance(x, dict)`). -/
def YamlValue.isMap : YamlValue → Bool
  | .map _ => true
  | _ => false

/-! ### Error types (`configexc.ConfigErrorDesc`, `configexc.ConfigFileErrors`) -/

/-- `configexc.ConfigErrorDesc(text, exception, traceback=None)`; the underlying
exception is embedded as its message string. -/
structure ConfigErrorDesc where
  text : String
  exception : String
  traceback : Option String := none
deriving DecidableEq

/-- `configexc.ConfigFileErrors(basename, errors)`. -/
structure ConfigFileErrors where
  basename : String
  errors : List ConfigErrorDesc
deriving DecidableEq

/-! ### YamlConfig -/

/-- `YamlConfig.VERSION`. -/
def VERSION : Nat := 1

/-- The mutable fields of a `YamlConfig` object: `_values` and `_dirty`.
`_dirty` is initialised to `None` in `__init__`, hence `Option Bool`. -/
structure YamlState where
  values : List (String × YamlValue)
  dirty : Option Bool

/-- The outcome of `open(self._filename)` followed by `utils.yaml_load(f)`. -/
inductive YamlReadResult
  | fileNotFound
  | osError (e : String)
  | yamlError (e : String)
  | parsed (v : YamlValue)

/-- The header `_save` writes before the YAML document, after
`textwrap.dedent(...)` of the indented literal. -/
def yamlHeader : String :=
  "# DO NOT edit this file by hand, qutebrowser will overwrite it.\n# Instead, create a config.py - see :help for details.\n\n"

/-- What one `_save` call writes to `autoconfig.yml`: the header followed by
`{config_version: VERSION, global: <values>}`. -/
structure SavedDoc where
  header : String
  config_version : Nat
  globalMap : List (String × YamlValue)

/-- `YamlConfig.__setitem__`: sets the dirty flag and stores the value. -/
def YamlConfig.setitem (st : YamlState) (name : String) (v : YamlValue) : YamlState :=
  { values := alSet st.values name v, dirty := some true }

/-- `YamlConfig._save`: returns `none` (no filesystem write) when
`not self._dirty`, otherwise the document written. -/
def YamlConfig.save (st : YamlState) : Option SavedDoc :=
  if st.dirty = some true then
    some { header := yamlHeader, config_version := VERSION, globalMap := st.values }
  else
    none

/-- The filename `YamlConfig.load` keys its aggregate errors by. -/
def autoconfigName : String := "autoconfig.yml"

/-- `YamlConfig.load`, with the schema registry (`name in configdata.DATA`)
as the predicate `known` and the file-read outcome as input. Returns the
object state after the call together with the raised `ConfigFileErrors`,
if any. Fields are only assigned on the final success lines, so every
raising path and the missing-file early return leave the state untouched. -/
def YamlConfig.load (known : String → Bool) (st : YamlState) (file : YamlReadResult) :
    YamlState × Option ConfigFileErrors :=
  match file with
  | .fileNotFound => (st, none)
  | .osError e =>
      (st, some ⟨autoconfigName, [⟨"While reading", e, none⟩]⟩)
  | .yamlError e =>
      (st, some ⟨autoconfigName, [⟨"While parsing", e, none⟩]⟩)
  | .parsed v =>
      match v with
      | .map entries =>
          match alGet entries "global" with
          | none =>
              (st, some ⟨autoconfigName,
                [⟨"While loading data",
                  "Toplevel object does not contain \x27global\x27 key", none⟩]⟩)
          | some g =>
              match g with
              | .map gEntries =>
                  ({ values := gEntries.filter (fun p => known p.1),
                     dirty := some false }, none)
              | _ =>
                  (st, some ⟨autoconfigName,
                    [⟨"While loading data",
                      "\x27global\x27 object is not a dict", none⟩]⟩)
      | _ =>
          (st, some ⟨autoconfigName,
            [⟨"While loading data", "Toplevel object is not a dict", none⟩]⟩)

/-! ### StateConfig

`StateConfig` extends `configparser.ConfigParser`; its parser state is an
ordered collection of sections, each an ordered mapping of string keys to
string values. `self.read(...)` of the backing file yields such a collection
(the empty list when the file is absent or empty); `StateConfig.__init__` is
embedded as a function of that parsed collection. -/

/-- One `configparser` section: ordered key/value pairs of strings. -/
abbrev IniSection := List (String × String)

/-- The section state of a `ConfigParser`. -/
structure StateData where
  sections : List (String × IniSection)

/-- `add_section(name)` with `DuplicateSectionError` swallowed: a no-op when
the section exists, otherwise append an empty section. -/
def addSection (s : StateData) (name : String) : StateData :=
  if name ∈ alKeys s.sections then s
  else { sections := s.sections ++ [(name, [])] }

/-- `section.pop(key, None)`: drop the entry for `key`, no error if absent. -/
def popKey (sec : IniSection) (k : String) : IniSection :=
  sec.filter (fun p => p.1 ≠ k)

/-- Apply `f` to the section named `name` (the one `self[name]` denotes). -/
def updateSection : List (String × IniSection) → String → (IniSection → IniSection) →
    List (String × IniSection)
  | [], _, _ => []
  | (n, sec) :: rest, name, f =>
      if n = name then (n, f sec) :: rest else (n, sec) :: updateSection rest name f

/-- The fixed deny-list `deleted_keys` of `StateConfig.__init__`. -/
def deleted_keys : List String := ["fooled", "backend-warning-shown"]

/-- `StateConfig.__init__` after `self.read(...)`: ensure the `general` and
`geometry` sections exist, then pop each deprecated key from `general`. -/
def StateConfig.initState (parsed : List (String × IniSection)) : StateData :=
  let s1 := addSection (addSection ⟨parsed⟩ "general") "geometry"
  deleted_keys.foldl
    (fun s k => ⟨updateSection s.sections "general" (fun sec => popKey sec k)⟩) s1

/-! ### The live configuration model and key configuration (external)

`config.Config` and `config.KeyConfig` live in `config.py`, outside this
excerpt; they are embedded from the spec's description of them. -/

/-- Modelled from the spec: the live configuration model (`config.Config`,
not part of this excerpt). It holds the resolved option values and the
deferred-update state touched by `update_mutables`. -/
structure ConfigModel where
  options : List (String × YamlValue)
  mutablesUpdated : Bool

/-- Modelled from the spec: the key-binding model (`config.KeyConfig`, not
part of this excerpt), mapping `(key, mode)` to a command. -/
structure KeyConfig where
  bindings : List ((String × String) × String)

/-- Modelled from the spec: `Config.get_obj(name)` "fetches the live resolved
value for an option; on validation/lookup failure" it raises a config error.
An unknown option name fails; a known one yields its stored value (`null`
standing for the schema default when unset). -/
def ConfigModel.get_obj (known : String → Bool) (m : ConfigModel) (name : String) :
    Except String YamlValue :=
  if known name then
    match alGet m.options name with
    | some v => .ok v
    | none => .ok .null
  else
    .error ("No option " ++ "\x27" ++ name ++ "\x27")

/-- Modelled from the spec: `Config.set_obj(name, value)` "validates and
applies"; setting an unknown option raises a config error and does not alter
the model. -/
def ConfigModel.set_obj (known : String → Bool) (m : ConfigModel) (name : String)
    (v : YamlValue) : Except String ConfigModel :=
  if known name then
    .ok { m with options := alSet m.options name v }
  else
    .error ("No option " ++ "\x27" ++ name ++ "\x27")

/-- Modelled from the spec: `Config.update_mutables()`, the deferred bulk
update `finalize` triggers after a batch of mutations. -/
def ConfigModel.update_mutables (m : ConfigModel) : ConfigModel :=
  { m with mutablesUpdated := true }

/-- Modelled from the spec: `KeyConfig.bind(key, command, mode, force)`;
without `force`, a bind conflicting with an existing binding for that
key/mode is an error, with `force` it overwrites. -/
def KeyConfig.bind (kc : KeyConfig) (key command mode : String) (force : Bool) :
    Except String KeyConfig :=
  match alGet kc.bindings (key, mode) with
  | some _ =>
      if force then .ok { bindings := alSet kc.bindings (key, mode) command }
      else .error ("Duplicate key " ++ "\x27" ++ key ++ "\x27")
  | none => .ok { bindings := alSet kc.bindings (key, mode) command }

/-- Modelled from the spec: `KeyConfig.unbind(key, mode)`; unbinding a key
that is not bound is an error. -/
def KeyConfig.unbind (kc : KeyConfig) (key mode : String) : Except String KeyConfig :=
  match alGet kc.bindings (key, mode) with
  | some _ => .ok { bindings := (kc.bindings).filter (fun p => p.1 ≠ (key, mode)) }
  | none => .error ("Can\x27t find binding " ++ "\x27" ++ key ++ "\x27")

/-! ### ConfigAPI -/

/-- The state of a `ConfigAPI` object together with the external models its
methods mutate through `self._config` and `self._keyconfig`. -/
structure ApiState where
  model : ConfigModel
  keyconf : KeyConfig
  load_autoconfig : Bool
  errors : List ConfigErrorDesc

/-- `ConfigAPI.__init__`: `load_autoconfig = True`, `errors = []`. -/
def ConfigAPI.initApi (m : ConfigModel) (kc : KeyConfig) : ApiState :=
  { model := m, keyconf := kc, load_autoconfig := true, errors := [] }

/-- The text `_handle_error` formats: `"While {} '{}'".format(action, name)`. -/
def handleErrorText (action name : String) : String :=
  "While " ++ (action ++ (" \x27" ++ (name ++ "\x27")))

/-- `ConfigAPI.get`: `_handle_error('getting', name)` around `get_obj`; a
caught config error is appended to `self.errors` and the call yields `None`. -/
def ConfigAPI.get (known : String → Bool) (api : ApiState) (name : String) :
    ApiState × Option YamlValue :=
  match ConfigModel.get_obj known api.model name with
  | .ok v => (api, some v)
  | .error e =>
      ({ api with errors := api.errors ++ [⟨handleErrorText "getting" name, e, none⟩] },
       none)

/-- `ConfigAPI.set`: `_handle_error('setting', name)` around `set_obj`. -/
def ConfigAPI.set (known : String → Bool) (api : ApiState) (name : String)
    (v : YamlValue) : ApiState :=
  match ConfigModel.set_obj known api.model name v with
  | .ok m => { api with model := m }
  | .error e =>
      { api with errors := api.errors ++ [⟨handleErrorText "setting" name, e, none⟩] }

/-- `ConfigAPI.bind`: `_handle_error('binding', key)` around `KeyConfig.bind`. -/
def ConfigAPI.bind (api : ApiState) (key command mode : String) (force : Bool) :
    ApiState :=
  match KeyConfig.bind api.keyconf key command mode force with
  | .ok kc => { api with keyconf := kc }
  | .error e =>
      { api with errors := api.errors ++ [⟨handleErrorText "binding" key, e, none⟩] }

/-- `ConfigAPI.unbind`: `_handle_error('unbinding', key)` around
`KeyConfig.unbind`. -/
def ConfigAPI.unbind (api : ApiState) (key mode : String) : ApiState :=
  match KeyConfig.unbind api.keyconf key mode with
  | .ok kc => { api with keyconf := kc }
  | .error e =>
      { api with errors := api.errors ++ [⟨handleErrorText "unbinding" key, e, none⟩] }

/-- `ConfigAPI.finalize`: calls `self._config.update_mutables()`. -/
def ConfigAPI.finalize (api : ApiState) : ApiState :=
  { api with model := api.model.update_mutables }

/-! ### Scripts and read_config_py -/

/-- A config.py script body, embedded as the sequence of facade interactions
it performs; `raiseExc e tb` is a statement raising an unhandled exception
`e` whose `traceback.format_exc()` is `tb`. -/
inductive ScriptStmt
  | get (name : String)
  | set (name : String) (v : YamlValue)
  | bind (key command mode : String) (force : Bool)
  | unbind (key mode : String)
  | setLoadAutoconfig (b : Bool)
  | raiseExc (e tb : String)

/-- Execute one script statement; the second component is the unhandled
exception it raises, if any. -/
def execStmt (known : String → Bool) (api : ApiState) :
    ScriptStmt → ApiState × Option (String × String)
  | .get n => ((ConfigAPI.get known api n).1, none)
  | .set n v => (ConfigAPI.set known api n v, none)
  | .bind k c m f => (ConfigAPI.bind api k c m f, none)
  | .unbind k m => (ConfigAPI.unbind api k m, none)
  | .setLoadAutoconfig b => ({ api with load_autoconfig := b }, none)
  | .raiseExc e tb => (api, some (e, tb))

/-- `exec(code, module.__dict__)`: run the statements in order until one
raises; an unhandled exception aborts the remaining statements. -/
def runScript (known : String → Bool) (api : ApiState) :
    List ScriptStmt → ApiState × Option (String × String)
  | [] => (api, none)
  | s :: rest =>
      match execStmt known api s with
      | (api', none) => runScript known api' rest
      | (api', some ex) => (api', some ex)

/-- The outcome of reading and compiling the script file. -/
inductive CompileOutcome
  | valueError (e : String)
  | syntaxError (e tb : String)
  | compiled (stmts : List ScriptStmt)

/-- The outcome of `open(filename, 'rb')` on the script file, and of
`compile` on its content when readable. -/
inductive ScriptFile
  | osError (e : String)
  | readOk (c : CompileOutcome)

/-- What `read_config_py` leaves behind: the returned `ConfigAPI` object or
the raised `ConfigFileErrors`, and the value of `sys.path` when control
leaves the function. -/
structure ReadConfigResult where
  result : Except ConfigFileErrors ApiState
  sysPath : List String

/-- `read_config_py(filename)`. Inputs: the schema registry, the config
directory (`standarddir.config()`), the current `sys.path`, the live models,
whether an explicit filename was passed (`filenameArg`), whether the default
`config.py` exists, the script-file outcome and the script's basename.
`sys.path = old_path` is executed only after `exec`; the read/compile error
paths raise with the mutated path in place. -/
def read_config_py (known : String → Bool) (configDir : String) (sysPath0 : List String)
    (m : ConfigModel) (kc : KeyConfig) (filenameArg : Option String)
    (defaultExists : Bool) (file : ScriptFile) (basename : String) : ReadConfigResult :=
  let api := ConfigAPI.initApi m kc
  match filenameArg, defaultExists with
  | none, false => { result := .ok api, sysPath := sysPath0 }
  | _, _ =>
    let old_path := sysPath0
    let path1 := if configDir ∈ sysPath0 then sysPath0 else configDir :: sysPath0
    match file with
    | .osError e =>
        { result := .error ⟨basename,
            [⟨"Error while reading " ++ basename, e, none⟩]⟩,
          sysPath := path1 }
    | .readOk (.valueError e) =>
        { result := .error ⟨basename, [⟨"Error while compiling", e, none⟩]⟩,
          sysPath := path1 }
    | .readOk (.syntaxError e tb) =>
        { result := .error ⟨basename, [⟨"Syntax Error", e, some tb⟩]⟩,
          sysPath := path1 }
    | .readOk (.compiled stmts) =>
        let run := runScript known api stmts
        let api2 := match run.2 with
          | none => run.1
          | some (e, tb) =>
              { run.1 with errors := run.1.errors ++ [⟨"Unhandled exception", e, some tb⟩] }
        { result := .ok (ConfigAPI.finalize api2), sysPath := old_path }

/-! ### Spec-side definitions and statement helpers -/

/-- The failure condition the spec enumerates for `YamlConfig.load`, written
from the spec's words: reading fails with an I/O error, the file is not valid
YAML, the top-level value is not a mapping, the top-level mapping lacks a
`global` key, or the `global` value is not a mapping. -/
def claimedLoadFailure (file : YamlReadResult) : Prop :=
  (∃ e, file = .osError e) ∨
  (∃ e, file = .yamlError e) ∨
  (∃ v, file = .parsed v ∧ v.isMap = false) ∨
  (∃ entries, file = .parsed (.map entries) ∧ alGet entries "global" = none) ∨
  (∃ entries g, file = .parsed (.map entries) ∧ alGet entries "global" = some g ∧
     g.isMap = false)

/-- A sequence of `YamlConfig.__setitem__` calls, applied in order. -/
def applySets (st : YamlState) (sets : List (String × YamlValue)) : YamlState :=
  sets.foldl (fun s p => YamlConfig.setitem s p.1 p.2) st

end Configfiles

namespace Configfiles

/-! ### Association-list lemmas -/

theorem alGet_append_left {κ α : Type} [DecidableEq κ] {l l2 : List (κ × α)} {k : κ}
    {v : α} (h : alGet l k = some v) : alGet (l ++ l2) k = some v := by
  induction l with
  | nil => simp [alGet] at h
  | cons p rest ih =>
      rw [List.cons_append]
      rw [alGet] at h ⊢
      by_cases hk : p.1 = k
      · simpa [hk] using h
      · rw [if_neg hk] at h ⊢
        exact ih h

theorem alGet_append_right {κ α : Type} [DecidableEq κ] {l : List (κ × α)} {k : κ}
    (l2 : List (κ × α)) (h : k ∉ alKeys l) : alGet (l ++ l2) k = alGet l2 k := by
  induction l with
  | nil => simp
  | cons p rest ih =>
      simp only [alKeys, List.map_cons, List.mem_cons] at h
      push_neg at h
      rw [List.cons_append, alGet, if_neg (fun he => h.1 he.symm)]
      exact ih (by simpa [alKeys] using h.2)

theorem alGet_some_of_mem {κ α : Type} [DecidableEq κ] {l : List (κ × α)} {k : κ}
    (h : k ∈ alKeys l) : ∃ v, alGet l k = some v := by
  induction l with
  | nil => simp [alKeys] at h
  | cons p rest ih =>
      rw [alGet]
      by_cases hk : p.1 = k
      · exact ⟨p.2, by simp [hk]⟩
      · rw [if_neg hk]
        refine ih ?_
        simp only [alKeys, List.map_cons, List.mem_cons] at h
        rcases h with h | h
        · exact absurd h.symm hk
        · exact h

theorem mem_alKeys_alSet {κ α : Type} [DecidableEq κ] {l : List (κ × α)} {k m : κ}
    {v : α} : m ∈ alKeys (alSet l k v) ↔ m ∈ alKeys l ∨ m = k := by
  induction l with
  | nil => simp [alSet, alKeys]
  | cons p rest ih =>
      obtain ⟨k', v'⟩ := p
      by_cases hk : k' = k
      · subst hk
        rw [alSet, if_pos rfl]
        simp only [alKeys, List.map_cons, List.mem_cons]
        tauto
      · rw [alSet, if_neg hk]
        simp only [alKeys, List.map_cons, List.mem_cons] at ih ⊢
        tauto

theorem alKeys_filter_subset {κ α : Type} {l : List (κ × α)} {p : κ × α → Bool} {m : κ}
    (h : m ∈ alKeys (l.filter p)) : m ∈ alKeys l := by
  simp only [alKeys, List.mem_map] at h ⊢
  rcases h with ⟨q, hq, rfl⟩
  exact ⟨q, (List.mem_filter.mp hq).1, rfl⟩

/-! ### StateConfig lemmas -/

theorem alKeys_updateSection (l : List (String × IniSection)) (name : String)
    (f : IniSection → IniSection) : alKeys (updateSection l name f) = alKeys l := by
  induction l with
  | nil => rfl
  | cons p rest ih =>
      cases p with
      | mk n sec =>
          rw [updateSection]
          by_cases hn : n = name
          · simp [hn, alKeys]
          · simp only [if_neg hn, alKeys, List.map_cons, List.cons.injEq]
            exact ⟨trivial, ih⟩

theorem alGet_updateSection_self (l : List (String × IniSection)) (name : String)
    (f : IniSection → IniSection) :
    alGet (updateSection l name f) name = (alGet l name).map f := by
  induction l with
  | nil => rfl
  | cons p rest ih =>
      obtain ⟨n, sec⟩ := p
      by_cases hn : n = name
      · simp [updateSection, alGet, hn]
      · simp [updateSection, alGet, hn, ih]

theorem alGet_updateSection_ne (l : List (String × IniSection)) {name m : String}
    (f : IniSection → IniSection) (h : m ≠ name) :
    alGet (updateSection l name f) m = alGet l m := by
  induction l with
  | nil => rfl
  | cons p rest ih =>
      obtain ⟨n, sec⟩ := p
      by_cases hn : n = name
      · subst hn
        simp [updateSection, alGet, Ne.symm h]
      · by_cases hm : n = m
        · subst hm
          simp [updateSection, alGet, hn]
        · simp [updateSection, alGet, hn, hm, ih]

theorem mem_alKeys_popKey {sec : IniSection} {k m : String} :
    m ∈ alKeys (popKey sec k) ↔ m ∈ alKeys sec ∧ m ≠ k := by
  simp only [popKey, alKeys, List.mem_map, List.mem_filter, decide_eq_true_eq]
  constructor
  · rintro ⟨q, ⟨hq, hne⟩, rfl⟩
    exact ⟨⟨q, hq, rfl⟩, hne⟩
  · rintro ⟨⟨q, hq, rfl⟩, hne⟩
    exact ⟨q, ⟨hq, hne⟩, rfl⟩

theorem initState_eq (parsed : List (String × IniSection)) :
    StateConfig.initState parsed =
      ⟨updateSection
        (updateSection (addSection (addSection ⟨parsed⟩ "general") "geometry").sections
          "general" (fun sec => popKey sec "fooled"))
        "general" (fun sec => popKey sec "backend-warning-shown")⟩ := rfl

/-! ### YamlConfig lemmas -/

theorem load_parsed_spec (known : String → Bool) (st : YamlState) (d : YamlValue) :
    (∃ entries g, d = .map entries ∧ alGet entries "global" = some (.map g) ∧
       YamlConfig.load known st (.parsed d) =
         (⟨g.filter (fun p => known p.1), some false⟩, none)) ∨
    ((YamlConfig.load known st (.parsed d)).1 = st ∧
       ∃ e, (YamlConfig.load known st (.parsed d)).2 = some e ∧
         e.basename = autoconfigName) := by
  cases d
  case map entries =>
    rcases hg : alGet entries "global" with _ | g
    · right
      simp [YamlConfig.load, hg]
    · cases g
      case map ge =>
        left
        exact ⟨entries, ge, rfl, hg, by simp [YamlConfig.load, hg]⟩
      all_goals
        right
      all_goals
        simp [YamlConfig.load, hg]
  all_goals
    right
  all_goals
    simp [YamlConfig.load]

theorem applySets_not_mem {u : String} {st : YamlState} {sets : List (String × YamlValue)}
    (h : u ∉ alKeys st.values) (hs : ∀ p ∈ sets, p.1 ≠ u) :
    u ∉ alKeys (applySets st sets).values := by
  induction sets generalizing st with
  | nil => exact h
  | cons p rest ih =>
      refine ih ?_ (fun q hq => hs q (by simp [hq]))
      intro hmem
      rcases mem_alKeys_alSet.mp hmem with h1 | h2
      · exact h h1
      · exact hs p (by simp) h2.symm

end Configfiles

namespace Configfiles

/-! ### Claim theorems -/

/-- Claim C2: `YamlConfig.load` raises an aggregate `ConfigFileErrors` keyed by
the document's filename `autoconfig.yml` exactly when the file exists but
reading fails with an I/O error, the file is not valid YAML, the parsed
top-level value lacks a `global` key, the top-level value is not a mapping,
or the `global` value is not a mapping; a missing file is not an error and
the load returns without raising. -/
theorem yamlconfig_load_error_conditions (known : String → Bool) (st : YamlState)
    (file : YamlReadResult) :
    ((YamlConfig.load known st file).2.isSome ↔ claimedLoadFailure file) ∧
    (∀ e, (YamlConfig.load known st file).2 = some e → e.basename = autoconfigName) ∧
    YamlConfig.load known st .fileNotFound = (st, none) := by
  refine ⟨?_, ?_, rfl⟩
  · cases file with
    | fileNotFound => simp [YamlConfig.load, claimedLoadFailure]
    | osError e => simp [YamlConfig.load, claimedLoadFailure]
    | yamlError e => simp [YamlConfig.load, claimedLoadFailure]
    | parsed v =>
        cases v
        case map entries =>
          rcases hg : alGet entries "global" with _ | g
          · simp [YamlConfig.load, hg, claimedLoadFailure]
          · cases g <;>
              simp [YamlConfig.load, hg, claimedLoadFailure, YamlValue.isMap]
        all_goals
          simp [YamlConfig.load, claimedLoadFailure, YamlValue.isMap]
  · intro e he
    cases file with
    | fileNotFound => exact absurd he (by simp [YamlConfig.load])
    | osError e2 =>
        simp [YamlConfig.load] at he
        subst he
        rfl
    | yamlError e2 =>
        simp [YamlConfig.load] at he
        subst he
        rfl
    | parsed v =>
        rcases load_parsed_spec known st v with ⟨entries, g, rfl, hg, hl⟩ | ⟨_, e2, he2, hb⟩
        · rw [hl] at he
          exact absurd he (by simp)
        · rw [he2] at he
          injection he with he3
          rw [← he3]
          exact hb

/-- Claim C2 witness: a parsed document whose root is a sequence fails, and
the error is keyed by `autoconfig.yml`. -/
theorem yamlconfig_load_error_conditions_witness :
    ((YamlConfig.load (fun _ => true) ⟨[], none⟩ (.parsed (.seq []))).2.isSome ↔
       claimedLoadFailure (.parsed (.seq []))) ∧
    (∀ e, (YamlConfig.load (fun _ => true) ⟨[], none⟩ (.parsed (.seq []))).2 = some e →
       e.basename = autoconfigName) ∧
    (⟨⟨[], none⟩, none⟩ : YamlState × Option ConfigFileErrors).2 = none := by
  have h := yamlconfig_load_error_conditions (fun _ => true) ⟨[], none⟩ (.parsed (.seq []))
  exact ⟨h.1, fun e he => h.2.1 e he, rfl⟩

/-- Claim C10: `YamlConfig.load` is atomic with respect to the store's state:
every failing load leaves `_values` and `_dirty` exactly as they were, the
missing-file case returns without touching them, and only a fully successful
load replaces the mapping wholesale and clears the dirty flag. -/
theorem yamlconfig_load_atomic (known : String → Bool) (st : YamlState)
    (file : YamlReadResult) :
    ((YamlConfig.load known st file).2 ≠ none → (YamlConfig.load known st file).1 = st) ∧
    YamlConfig.load known st .fileNotFound = (st, none) ∧
    ((YamlConfig.load known st file).2 = none → file ≠ .fileNotFound →
       ∃ entries g, file = .parsed (.map entries) ∧
         alGet entries "global" = some (.map g) ∧
         YamlConfig.load known st file =
           (⟨g.filter (fun p => known p.1), some false⟩, none)) := by
  refine ⟨?_, rfl, ?_⟩
  · intro hne
    cases file with
    | fileNotFound => rfl
    | osError e => rfl
    | yamlError e => rfl
    | parsed v =>
        rcases load_parsed_spec known st v with ⟨entries, g, rfl, hg, hl⟩ | ⟨h1, _⟩
        · exact absurd (by rw [hl]) hne
        · exact h1
  · intro hnone hnf
    cases file with
    | fileNotFound => exact absurd rfl hnf
    | osError e => exact absurd hnone (by simp [YamlConfig.load])
    | yamlError e => exact absurd hnone (by simp [YamlConfig.load])
    | parsed v =>
        rcases load_parsed_spec known st v with ⟨entries, g, rfl, hg, hl⟩ | ⟨_, e2, he2, _⟩
        · exact ⟨entries, g, rfl, hg, hl⟩
        · rw [he2] at hnone
          exact absurd hnone (by simp)

/-- Claim C10 witness: a load failing on a sequence root leaves a dirty state
with values untouched, and a successful load replaces them. -/
theorem yamlconfig_load_atomic_witness :
    (YamlConfig.load (fun _ => true) ⟨[("a", .int 1)], some true⟩ (.parsed (.seq []))).1 =
      ⟨[("a", .int 1)], some true⟩ := by
  have h := yamlconfig_load_atomic (fun _ => true) ⟨[("a", .int 1)], some true⟩
    (.parsed (.seq []))
  exact h.1 (by simp [YamlConfig.load])

/-- Claim C4: after every successful `YamlConfig.load`, every key of the
in-memory mapping is a known schema option; an unknown key of the document's
`global` mapping is dropped without an error, and no subsequent save (after
any sequence of sets not naming it) writes that key back. -/
theorem yamlconfig_unknown_dropped (known : String → Bool) (st : YamlState)
    (entries g : List (String × YamlValue)) (u : String)
    (hg : alGet entries "global" = some (.map g)) (hu : known u = false) :
    (YamlConfig.load known st (.parsed (.map entries))).2 = none ∧
    (∀ k, k ∈ alKeys (YamlConfig.load known st (.parsed (.map entries))).1.values →
       known k = true) ∧
    u ∉ alKeys (YamlConfig.load known st (.parsed (.map entries))).1.values ∧
    (∀ sets, (∀ p ∈ sets, p.1 ≠ u) → ∀ d,
       YamlConfig.save
         (applySets (YamlConfig.load known st (.parsed (.map entries))).1 sets) = some d →
       u ∉ alKeys d.globalMap) := by
  have hload : YamlConfig.load known st (.parsed (.map entries)) =
      (⟨g.filter (fun p => known p.1), some false⟩, none) := by
    simp [YamlConfig.load, hg]
  have hkeys : ∀ k, k ∈ alKeys (YamlConfig.load known st (.parsed (.map entries))).1.values →
      known k = true := by
    rw [hload]
    intro k hk
    simp only [alKeys, List.mem_map, List.mem_filter] at hk
    rcases hk with ⟨q, ⟨_, hq⟩, rfl⟩
    exact hq
  have hnu : u ∉ alKeys (YamlConfig.load known st (.parsed (.map entries))).1.values :=
    fun hmem => by rw [hkeys u hmem] at hu; exact absurd hu (by decide)
  refine ⟨by rw [hload], hkeys, hnu, ?_⟩
  intro sets hsets d hd
  have hind := applySets_not_mem hnu hsets
  rw [YamlConfig.save] at hd
  split at hd
  · injection hd with hd2
    rw [← hd2]
    exact hind
  · exact absurd hd (by simp)

/-- Claim C4 witness: with only `colors` known, loading a document whose
`global` has keys `colors` and `old-opt` drops `old-opt`. -/
theorem yamlconfig_unknown_dropped_witness :
    (YamlConfig.load (fun s => s == "colors") ⟨[], none⟩
       (.parsed (.map [("global",
          .map [("colors", .str "red"), ("old-opt", .int 3)])]))).2 = none ∧
    "old-opt" ∉ alKeys (YamlConfig.load (fun s => s == "colors") ⟨[], none⟩
       (.parsed (.map [("global",
          .map [("colors", .str "red"), ("old-opt", .int 3)])]))).1.values := by
  have h := yamlconfig_unknown_dropped (fun s => s == "colors") ⟨[], none⟩
    [("global", YamlValue.map [("colors", .str "red"), ("old-opt", .int 3)])]
    [("colors", YamlValue.str "red"), ("old-opt", YamlValue.int 3)] "old-opt"
    (by rfl) (by rfl)
  exact ⟨h.1, h.2.2.1⟩

/-- Claim C3 is false as stated: loading a valid document `D` with all keys
known succeeds and fills `_values` with `D`'s `global` mapping, but the load
clears the dirty flag, so the save that follows performs no write at all
(`_save` returns before writing); no document with `D`'s `global` mapping is
written. -/
theorem yamlconfig_roundtrip_counterexample :
    (YamlConfig.load (fun _ => true) ⟨[], none⟩
       (.parsed (.map [("global", .map [("colors", .str "red")])]))).1.values =
      [("colors", YamlValue.str "red")] ∧
    (YamlConfig.load (fun _ => true) ⟨[], none⟩
       (.parsed (.map [("global", .map [("colors", .str "red")])]))).2 = none ∧
    YamlConfig.save
      (YamlConfig.load (fun _ => true) ⟨[], none⟩
        (.parsed (.map [("global", .map [("colors", .str "red")])]))).1 = none := by
  refine ⟨?_, rfl, rfl⟩
  rfl

/-- Claim C3 amended: loading a valid override document `D` whose `global`
keys are all in the schema registry succeeds and makes the in-memory mapping
equal to `D`'s `global` mapping; the save directly after the load performs no
write because the load cleared the dirty flag; and any save performed from
that mapping while the dirty flag is set writes a document whose `global`
mapping equals `D`'s and whose `config_version` equals `VERSION`. -/
theorem yamlconfig_roundtrip_amended (known : String → Bool) (st : YamlState)
    (entries g : List (String × YamlValue))
    (hg : alGet entries "global" = some (.map g))
    (hk : ∀ p ∈ g, known p.1 = true) :
    (YamlConfig.load known st (.parsed (.map entries))).2 = none ∧
    (YamlConfig.load known st (.parsed (.map entries))).1.values = g ∧
    (YamlConfig.load known st (.parsed (.map entries))).1.dirty = some false ∧
    YamlConfig.save (YamlConfig.load known st (.parsed (.map entries))).1 = none ∧
    (∀ st2 : YamlState, st2.values = g → st2.dirty = some true →
       YamlConfig.save st2 = some ⟨yamlHeader, VERSION, g⟩) := by
  have hload : YamlConfig.load known st (.parsed (.map entries)) =
      (⟨g.filter (fun p => known p.1), some false⟩, none) := by
    simp [YamlConfig.load, hg]
  have hfilter : g.filter (fun p => known p.1) = g :=
    List.filter_eq_self.mpr hk
  refine ⟨by rw [hload], by rw [hload, hfilter], by rw [hload], ?_, ?_⟩
  · rw [hload]
    rfl
  · intro st2 hv hd
    rw [YamlConfig.save, if_pos hd, hv]

/-- Claim C3 amended witness: a one-option document round-trips through the
in-memory mapping, the immediate save writes nothing, and a dirty save from
the same mapping writes version `VERSION` with `D`'s `global` mapping. -/
theorem yamlconfig_roundtrip_amended_witness :
    (YamlConfig.load (fun _ => true) ⟨[], none⟩
       (.parsed (.map [("global", .map [("colors", .str "red")])]))).1.values =
      [("colors", YamlValue.str "red")] ∧
    YamlConfig.save
      (YamlConfig.load (fun _ => true) ⟨[], none⟩
        (.parsed (.map [("global", .map [("colors", .str "red")])]))).1 = none ∧
    YamlConfig.save ⟨[("colors", .str "red")], some true⟩ =
      some ⟨yamlHeader, VERSION, [("colors", YamlValue.str "red")]⟩ := by
  have h := yamlconfig_roundtrip_amended (fun _ => true) ⟨[], none⟩
    [("global", YamlValue.map [("colors", .str "red")])]
    [("colors", YamlValue.str "red")] (by rfl) (by intro p _; rfl)
  exact ⟨h.2.1, h.2.2.2.1, h.2.2.2.2 ⟨[("colors", .str "red")], some true⟩ rfl rfl⟩

/-- Claim C5: `YamlConfig._save` performs no filesystem write when the dirty
flag is not set (in particular directly after a successful load), and
`__setitem__` always marks the dirty flag, so a save after a set writes. -/
theorem yamlconfig_dirty_gate (st : YamlState) (n : String) (v : YamlValue)
    (known : String → Bool) :
    (st.dirty ≠ some true → YamlConfig.save st = none) ∧
    (YamlConfig.setitem st n v).dirty = some true ∧
    (YamlConfig.save (YamlConfig.setitem st n v)).isSome = true ∧
    (∀ d, (YamlConfig.load known st (.parsed d)).2 = none →
       YamlConfig.save (YamlConfig.load known st (.parsed d)).1 = none) := by
  refine ⟨?_, rfl, rfl, ?_⟩
  · intro h
    rw [YamlConfig.save, if_neg h]
  · intro d hnone
    rcases load_parsed_spec known st d with ⟨entries, g, rfl, hg, hl⟩ | ⟨_, e2, he2, _⟩
    · rw [hl]
      rfl
    · rw [he2] at hnone
      exact absurd hnone (by simp)

/-- Claim C5 witness: a freshly loaded store saves nothing; one set marks it
dirty and the following save writes. -/
theorem yamlconfig_dirty_gate_witness :
    YamlConfig.save ⟨[], some false⟩ = none ∧
    (YamlConfig.setitem ⟨[], some false⟩ "colors" (.str "red")).dirty = some true ∧
    (YamlConfig.save (YamlConfig.setitem ⟨[], some false⟩ "colors" (.str "red"))).isSome =
      true ∧
    YamlConfig.save
      (YamlConfig.load (fun _ => true) ⟨[], some false⟩
        (.parsed (.map [("global", .map [])]))).1 = none := by
  have h := yamlconfig_dirty_gate ⟨[], some false⟩ "colors" (.str "red") (fun _ => true)
  exact ⟨h.1 (by simp), h.2.1, h.2.2.1, h.2.2.2 (.map [("global", .map [])]) rfl⟩

end Configfiles

namespace Configfiles

theorem mem_alKeys_addSection {s : StateData} {n m : String} :
    m ∈ alKeys (addSection s n).sections ↔ m ∈ alKeys s.sections ∨ m = n := by
  by_cases h : n ∈ alKeys s.sections
  · rw [addSection, if_pos h]
    constructor
    · exact Or.inl
    · rintro (h1 | rfl)
      · exact h1
      · exact h
  · rw [addSection, if_neg h]
    simp [alKeys]

/-- Claim C8: after `StateConfig.__init__`, the sections `general` and
`geometry` both exist, whatever the backing file contained; creating a
section that already exists is a no-op rather than an error; and when the
file lacked them, both sections are empty. -/
theorem stateconfig_sections_exist (parsed : List (String × IniSection)) :
    "general" ∈ alKeys (StateConfig.initState parsed).sections ∧
    "geometry" ∈ alKeys (StateConfig.initState parsed).sections ∧
    (∀ (s : StateData) (name : String), name ∈ alKeys s.sections →
       addSection s name = s) ∧
    ("general" ∉ alKeys parsed →
       alGet (StateConfig.initState parsed).sections "general" = some []) ∧
    ("geometry" ∉ alKeys parsed →
       alGet (StateConfig.initState parsed).sections "geometry" = some []) := by
  have hmemg : "general" ∈ alKeys (StateConfig.initState parsed).sections := by
    rw [initState_eq]
    show "general" ∈ alKeys (updateSection _ _ _)
    rw [alKeys_updateSection, alKeys_updateSection]
    exact mem_alKeys_addSection.mpr (Or.inl (mem_alKeys_addSection.mpr (Or.inr rfl)))
  have hmemgeo : "geometry" ∈ alKeys (StateConfig.initState parsed).sections := by
    rw [initState_eq]
    show "geometry" ∈ alKeys (updateSection _ _ _)
    rw [alKeys_updateSection, alKeys_updateSection]
    exact mem_alKeys_addSection.mpr (Or.inr rfl)
  refine ⟨hmemg, hmemgeo, ?_, ?_, ?_⟩
  · intro s name h
    rw [addSection, if_pos h]
  · intro hng
    rw [initState_eq]
    show alGet (updateSection _ _ _) _ = _
    rw [alGet_updateSection_self, alGet_updateSection_self]
    have h1 : alGet (addSection ⟨parsed⟩ "general").sections "general" = some [] := by
      rw [addSection, if_neg (by simpa [alKeys] using hng)]
      show alGet (parsed ++ [("general", [])]) "general" = some []
      rw [alGet_append_right _ hng]
      rfl
    have h2 : alGet (addSection (addSection ⟨parsed⟩ "general") "geometry").sections
        "general" = some [] := by
      rw [addSection]
      split
      · exact h1
      · exact alGet_append_left h1
    rw [h2]
    rfl
  · intro hgg
    rw [initState_eq]
    show alGet (updateSection _ _ _) _ = _
    rw [alGet_updateSection_ne _ _ (by decide), alGet_updateSection_ne _ _ (by decide)]
    have hnotin : "geometry" ∉ alKeys (addSection ⟨parsed⟩ "general").sections := by
      intro hmem
      rcases mem_alKeys_addSection.mp hmem with h1 | h2
      · exact hgg h1
      · exact absurd h2 (by decide)
    rw [addSection, if_neg hnotin]
    show alGet ((addSection ⟨parsed⟩ "general").sections ++ [("geometry", [])])
      "geometry" = some []
    rw [alGet_append_right _ hnotin]
    rfl

/-- Claim C8 witness: from an empty backing file, both sections exist and are
empty, and re-adding an existing section changes nothing. -/
theorem stateconfig_sections_exist_witness :
    "general" ∈ alKeys (StateConfig.initState []).sections ∧
    "geometry" ∈ alKeys (StateConfig.initState []).sections ∧
    addSection ⟨[("general", [])]⟩ "general" = ⟨[("general", [])]⟩ ∧
    alGet (StateConfig.initState []).sections "general" = some [] ∧
    alGet (StateConfig.initState []).sections "geometry" = some [] := by
  have h := stateconfig_sections_exist []
  exact ⟨h.1, h.2.1, h.2.2.1 ⟨[("general", [])]⟩ "general" (by simp [alKeys]),
    h.2.2.2.1 (by simp [alKeys]), h.2.2.2.2 (by simp [alKeys])⟩

/-- Claim C9: after `StateConfig.__init__`, every key of the deny-list
(`fooled`, `backend-warning-shown`) is absent from the `general` section,
for every backing file content and whatever values those keys held. -/
theorem stateconfig_deprecated_removed (parsed : List (String × IniSection))
    (k : String) (hk : k ∈ deleted_keys) (sec : IniSection)
    (h : alGet (StateConfig.initState parsed).sections "general" = some sec) :
    k ∉ alKeys sec := by
  rw [initState_eq] at h
  rw [show (⟨updateSection
        (updateSection (addSection (addSection ⟨parsed⟩ "general") "geometry").sections
          "general" (fun sec => popKey sec "fooled"))
        "general" (fun sec => popKey sec "backend-warning-shown")⟩ : StateData).sections =
      updateSection
        (updateSection (addSection (addSection ⟨parsed⟩ "general") "geometry").sections
          "general" (fun sec => popKey sec "fooled"))
        "general" (fun sec => popKey sec "backend-warning-shown") from rfl] at h
  rw [alGet_updateSection_self, alGet_updateSection_self] at h
  rcases ha : alGet (addSection (addSection ⟨parsed⟩ "general") "geometry").sections
      "general" with _ | sec0
  · rw [ha] at h
    simp at h
  · rw [ha] at h
    simp only [Option.map_some'] at h
    injection h with h2
    subst h2
    simp only [deleted_keys, List.mem_cons, List.not_mem_nil, or_false] at hk
    rcases hk with rfl | rfl
    · intro hmem
      exact absurd (mem_alKeys_popKey.mp (mem_alKeys_popKey.mp hmem).1).2 (by simp)
    · intro hmem
      exact (mem_alKeys_popKey.mp hmem).2 rfl

/-- Claim C9 witness: a `general` section holding `fooled` loses it while
other keys survive. -/
theorem stateconfig_deprecated_removed_witness :
    "fooled" ∈ deleted_keys ∧
    alGet (StateConfig.initState
        [("general", [("fooled", "1"), ("version", "2")])]).sections "general" =
      some [("version", "2")] ∧
    "fooled" ∉ alKeys [("version", "2")] := by
  refine ⟨by simp [deleted_keys], by rfl, ?_⟩
  exact stateconfig_deprecated_removed [("general", [("fooled", "1"), ("version", "2")])]
    "fooled" (by simp [deleted_keys]) [("version", "2")] (by rfl)

end Configfiles

namespace Configfiles

/-! ### Facade and script lemmas -/

theorem while_text_ne (r : String) : "While " ++ r ≠ "Unhandled exception" := by
  intro h
  have h2 : ("While " ++ r).data = "Unhandled exception".data := by rw [h]
  rw [String.data_append] at h2
  have h3 : "While ".data = ['W', 'h', 'i', 'l', 'e', ' '] := by decide
  have h4 : "Unhandled exception".data =
      ['U', 'n', 'h', 'a', 'n', 'd', 'l', 'e', 'd', ' ',
       'e', 'x', 'c', 'e', 'p', 't', 'i', 'o', 'n'] := by decide
  rw [h3, h4] at h2
  simp only [List.cons_append] at h2
  injection h2 with h5 _
  exact absurd h5 (by decide)

theorem handleErrorText_eq (action name : String) :
    handleErrorText action name =
      "While " ++ (action ++ (" \x27" ++ (name ++ "\x27"))) := rfl

theorem execStmt_errors_while (known : String → Bool) (api : ApiState) (s : ScriptStmt)
    (hbase : ∀ d ∈ api.errors, ∃ r, d.text = "While " ++ r) :
    ∀ d ∈ (execStmt known api s).1.errors, ∃ r, d.text = "While " ++ r := by
  cases s with
  | get n =>
      intro d hd
      rcases hob : ConfigModel.get_obj known api.model n with e | v <;>
        simp only [execStmt, ConfigAPI.get, hob] at hd
      · rcases List.mem_append.mp hd with hd | hd
        · exact hbase d hd
        · rw [List.mem_singleton.mp hd]
          exact ⟨_, handleErrorText_eq "getting" n⟩
      · exact hbase d hd
  | set n v =>
      intro d hd
      rcases hob : ConfigModel.set_obj known api.model n v with e | m2 <;>
        simp only [execStmt, ConfigAPI.set, hob] at hd
      · rcases List.mem_append.mp hd with hd | hd
        · exact hbase d hd
        · rw [List.mem_singleton.mp hd]
          exact ⟨_, handleErrorText_eq "setting" n⟩
      · exact hbase d hd
  | bind k c mo f =>
      intro d hd
      rcases hob : KeyConfig.bind api.keyconf k c mo f with e | kc2 <;>
        simp only [execStmt, ConfigAPI.bind, hob] at hd
      · rcases List.mem_append.mp hd with hd | hd
        · exact hbase d hd
        · rw [List.mem_singleton.mp hd]
          exact ⟨_, handleErrorText_eq "binding" k⟩
      · exact hbase d hd
  | unbind k mo =>
      intro d hd
      rcases hob : KeyConfig.unbind api.keyconf k mo with e | kc2 <;>
        simp only [execStmt, ConfigAPI.unbind, hob] at hd
      · rcases List.mem_append.mp hd with hd | hd
        · exact hbase d hd
        · rw [List.mem_singleton.mp hd]
          exact ⟨_, handleErrorText_eq "unbinding" k⟩
      · exact hbase d hd
  | setLoadAutoconfig b => exact hbase
  | raiseExc e tb => exact hbase

theorem runScript_errors_while (known : String → Bool) (stmts : List ScriptStmt)
    (api : ApiState) (hbase : ∀ d ∈ api.errors, ∃ r, d.text = "While " ++ r) :
    ∀ d ∈ (runScript known api stmts).1.errors, ∃ r, d.text = "While " ++ r := by
  induction stmts generalizing api with
  | nil => exact hbase
  | cons s rest ih =>
      have hstep := execStmt_errors_while known api s hbase
      rw [runScript]
      rcases hex : execStmt known api s with ⟨api', exc⟩
      rw [hex] at hstep
      cases exc with
      | none => exact ih api' hstep
      | some ex => exact hstep

theorem filter_unhandled_nil (l : List ConfigErrorDesc)
    (hl : ∀ d ∈ l, ∃ r, d.text = "While " ++ r) :
    l.filter (fun d => d.text == "Unhandled exception") = [] := by
  induction l with
  | nil => rfl
  | cons d rest ih =>
      rcases hl d (by simp) with ⟨r, hr⟩
      have hne : (d.text == "Unhandled exception") = false := by
        rw [beq_eq_false_iff_ne, hr]
        exact while_text_ne r
      rw [List.filter_cons, if_neg (by simp [hne])]
      exact ih (fun d2 hd2 => hl d2 (by simp [hd2]))

end Configfiles

namespace Configfiles

/-- Claim C1 is false as stated: on the error path where reading the script
file raises the aggregate error, `sys.path = old_path` on the post-exec line
is never reached, so the config directory inserted before the read stays on
the path. Concretely: prior path `[]`, config dir `/conf`, unreadable file;
after the call the path is `["/conf"]`, not `[]`. -/
theorem readconfig_path_counterexample :
    (read_config_py (fun _ => true) "/conf" [] ⟨[], false⟩ ⟨[]⟩ (some "/conf/config.py")
       false (.osError "Permission denied") "config.py").sysPath = ["/conf"] ∧
    (read_config_py (fun _ => true) "/conf" [] ⟨[], false⟩ ⟨[]⟩ (some "/conf/config.py")
       false (.osError "Permission denied") "config.py").result =
      .error ⟨"config.py",
        [⟨"Error while reading " ++ "config.py", "Permission denied", none⟩]⟩ ∧
    (["/conf"] : List String) ≠ [] := by
  exact ⟨rfl, rfl, by simp⟩

/-- Claim C1 amended: the import search path is restored to its pre-call
value on every normally returning exit (normal completion, a caught script
exception, and the missing-default early return); on the error exits where
reading or compiling raises the aggregate error, the path keeps the inserted
config directory, so it equals the pre-call value only when the config
directory was already on it. -/
theorem readconfig_path_amended (known : String → Bool) (configDir : String)
    (sysPath0 : List String) (m : ConfigModel) (kc : KeyConfig)
    (filenameArg : Option String) (defaultExists : Bool) (file : ScriptFile)
    (basename : String) :
    (∀ api, (read_config_py known configDir sysPath0 m kc filenameArg defaultExists
        file basename).result = .ok api →
      (read_config_py known configDir sysPath0 m kc filenameArg defaultExists
        file basename).sysPath = sysPath0) ∧
    (∀ err, (read_config_py known configDir sysPath0 m kc filenameArg defaultExists
        file basename).result = .error err →
      (read_config_py known configDir sysPath0 m kc filenameArg defaultExists
        file basename).sysPath =
        (if configDir ∈ sysPath0 then sysPath0 else configDir :: sysPath0)) := by
  constructor
  · intro api hok
    rcases filenameArg with _ | f <;> cases defaultExists <;>
      rcases file with e | c
    all_goals
      try cases c
    all_goals
      first
        | rfl
        | simp [read_config_py] at hok
  · intro err herr
    rcases filenameArg with _ | f <;> cases defaultExists <;>
      rcases file with e | c
    all_goals
      try cases c
    all_goals
      first
        | rfl
        | simp [read_config_py] at herr

/-- Claim C1 amended witness: with prior path `[]`, a successful run restores
`[]`, while a syntax-error exit leaves `["/conf"]`. -/
theorem readconfig_path_amended_witness :
    (read_config_py (fun _ => true) "/conf" [] ⟨[], false⟩ ⟨[]⟩ (some "/conf/config.py")
       false (.readOk (.compiled [])) "config.py").sysPath = [] ∧
    (read_config_py (fun _ => true) "/conf" [] ⟨[], false⟩ ⟨[]⟩ (some "/conf/config.py")
       false (.readOk (.syntaxError "bad" "tb")) "config.py").sysPath =
      (if "/conf" ∈ ([] : List String) then [] else ["/conf"]) := by
  have h1 := readconfig_path_amended (fun _ => true) "/conf" [] ⟨[], false⟩ ⟨[]⟩
    (some "/conf/config.py") false (.readOk (.compiled [])) "config.py"
  have h2 := readconfig_path_amended (fun _ => true) "/conf" [] ⟨[], false⟩ ⟨[]⟩
    (some "/conf/config.py") false (.readOk (.syntaxError "bad" "tb")) "config.py"
  exact ⟨h1.1 _ rfl, h2.2 _ rfl⟩

/-- Claim C6: when the script body raises, `read_config_py` catches the
exception, appends exactly one `Unhandled exception` descriptor with the
captured traceback to the error list, returns the api object instead of
re-raising, still calls `finalize()` (`update_mutables`), and every facade
mutation made before the raise remains applied. -/
theorem readconfig_unhandled_exception (known : String → Bool) (configDir : String)
    (sysPath0 : List String) (m : ConfigModel) (kc : KeyConfig) (fname : String)
    (defaultExists : Bool) (stmts : List ScriptStmt) (basename e tb : String)
    (h : (runScript known (ConfigAPI.initApi m kc) stmts).2 = some (e, tb)) :
    ∃ api : ApiState,
      (read_config_py known configDir sysPath0 m kc (some fname) defaultExists
         (.readOk (.compiled stmts)) basename).result = .ok api ∧
      api.errors = (runScript known (ConfigAPI.initApi m kc) stmts).1.errors ++
        [⟨"Unhandled exception", e, some tb⟩] ∧
      (api.errors.filter (fun d => d.text == "Unhandled exception")).length = 1 ∧
      api.model.options = (runScript known (ConfigAPI.initApi m kc) stmts).1.model.options ∧
      api.keyconf = (runScript known (ConfigAPI.initApi m kc) stmts).1.keyconf ∧
      api.model.mutablesUpdated = true := by
  have hwhile : ∀ d ∈ (runScript known (ConfigAPI.initApi m kc) stmts).1.errors,
      ∃ r, d.text = "While " ++ r :=
    runScript_errors_while known stmts (ConfigAPI.initApi m kc) (by simp [ConfigAPI.initApi])
  refine ⟨ConfigAPI.finalize
    { (runScript known (ConfigAPI.initApi m kc) stmts).1 with
      errors := (runScript known (ConfigAPI.initApi m kc) stmts).1.errors ++
        [⟨"Unhandled exception", e, some tb⟩] }, ?_, rfl, ?_, rfl, rfl, rfl⟩
  · cases defaultExists <;>
    · show Except.ok _ = _
      rw [h]
  · rw [show (ConfigAPI.finalize
        { (runScript known (ConfigAPI.initApi m kc) stmts).1 with
          errors := (runScript known (ConfigAPI.initApi m kc) stmts).1.errors ++
            [⟨"Unhandled exception", e, some tb⟩] }).errors =
        (runScript known (ConfigAPI.initApi m kc) stmts).1.errors ++
          [⟨"Unhandled exception", e, some tb⟩] from rfl]
    rw [List.filter_append, filter_unhandled_nil _ hwhile]
    rfl

/-- Claim C6 witness: a script that sets an option and then raises yields a
returned api whose mutation survives, with exactly one unhandled-exception
descriptor, and `update_mutables` was run. -/
theorem readconfig_unhandled_exception_witness :
    (runScript (fun _ => true) (ConfigAPI.initApi ⟨[], false⟩ ⟨[]⟩)
       [ScriptStmt.set "opt" (.int 1), .raiseExc "boom" "tb"]).2 = some ("boom", "tb") ∧
    ∃ api : ApiState,
      (read_config_py (fun _ => true) "/conf" [] ⟨[], false⟩ ⟨[]⟩ (some "/conf/config.py")
         false (.readOk (.compiled [ScriptStmt.set "opt" (.int 1), .raiseExc "boom" "tb"]))
         "config.py").result = .ok api ∧
      (api.errors.filter (fun d => d.text == "Unhandled exception")).length = 1 ∧
      api.model.options =
        (runScript (fun _ => true) (ConfigAPI.initApi ⟨[], false⟩ ⟨[]⟩)
          [ScriptStmt.set "opt" (.int 1), .raiseExc "boom" "tb"]).1.model.options ∧
      api.model.mutablesUpdated = true := by
  have h := readconfig_unhandled_exception (fun _ => true) "/conf" [] ⟨[], false⟩ ⟨[]⟩
    "/conf/config.py" false [ScriptStmt.set "opt" (.int 1), .raiseExc "boom" "tb"]
    "config.py" "boom" "tb" (by rfl)
  rcases h with ⟨api, h1, _, h3, h4, _, h6⟩
  exact ⟨rfl, api, h1, h3, h4, h6⟩

/-- Claim C7: each facade operation is independently fault-isolated: a config
error in the wrapped call appends one descriptor with text
`While <action> '<name>'` to the error list, leaves the live configuration
model and key config untouched, does not raise to the script, and never
stops the following statements from running. -/
theorem configapi_fault_isolation (known : String → Bool) (api : ApiState)
    (name : String) (v : YamlValue) (key command mode : String) (force : Bool) :
    (∀ e, ConfigModel.get_obj known api.model name = .error e →
       ConfigAPI.get known api name =
         ({ api with errors := api.errors ++ [⟨handleErrorText "getting" name, e, none⟩] },
          none)) ∧
    (∀ e, ConfigModel.set_obj known api.model name v = .error e →
       ConfigAPI.set known api name v =
         { api with errors := api.errors ++ [⟨handleErrorText "setting" name, e, none⟩] }) ∧
    (∀ e, KeyConfig.bind api.keyconf key command mode force = .error e →
       ConfigAPI.bind api key command mode force =
         { api with errors := api.errors ++ [⟨handleErrorText "binding" key, e, none⟩] }) ∧
    (∀ e, KeyConfig.unbind api.keyconf key mode = .error e →
       ConfigAPI.unbind api key mode =
         { api with errors := api.errors ++ [⟨handleErrorText "unbinding" key, e, none⟩] }) ∧
    (∀ rest, runScript known api (.get name :: rest) =
       runScript known (ConfigAPI.get known api name).1 rest) ∧
    (∀ rest, runScript known api (.set name v :: rest) =
       runScript known (ConfigAPI.set known api name v) rest) ∧
    (∀ rest, runScript known api (.bind key command mode force :: rest) =
       runScript known (ConfigAPI.bind api key command mode force) rest) ∧
    (∀ rest, runScript known api (.unbind key mode :: rest) =
       runScript known (ConfigAPI.unbind api key mode) rest) := by
  refine ⟨?_, ?_, ?_, ?_, fun rest => rfl, fun rest => rfl, fun rest => rfl,
    fun rest => rfl⟩
  · intro e he
    simp [ConfigAPI.get, he]
  · intro e he
    simp [ConfigAPI.set, he]
  · intro e he
    simp [ConfigAPI.bind, he]
  · intro e he
    simp [ConfigAPI.unbind, he]

/-- Claim C7 witness: `config.set('unknown-option', 5)` appends exactly the
descriptor `While setting 'unknown-option'` and leaves the model untouched. -/
theorem configapi_fault_isolation_witness :
    ConfigModel.set_obj (fun _ => false) (ConfigAPI.initApi ⟨[], false⟩ ⟨[]⟩).model
      "unknown-option" (.int 5) =
      .error ("No option " ++ "\x27" ++ "unknown-option" ++ "\x27") ∧
    ConfigAPI.set (fun _ => false) (ConfigAPI.initApi ⟨[], false⟩ ⟨[]⟩) "unknown-option"
      (.int 5) =
      { ConfigAPI.initApi ⟨[], false⟩ ⟨[]⟩ with
        errors := [] ++ [⟨handleErrorText "setting" "unknown-option",
          "No option " ++ "\x27" ++ "unknown-option" ++ "\x27", none⟩] } := by
  have h := configapi_fault_isolation (fun _ => false) (ConfigAPI.initApi ⟨[], false⟩ ⟨[]⟩)
    "unknown-option" (.int 5) "k" "cmd" "normal" false
  exact ⟨rfl, h.2.1 ("No option " ++ "\x27" ++ "unknown-option" ++ "\x27") rfl⟩

end Configfiles
